import Mathlib

/-!
Verification of the BUID (Bipartite Unique Identifier) generator and codec.

The development embeds the Go package `buid` shallowly:
absolute wall-clock instants (Go `time.Time`) are modelled as the integer
number of nanoseconds since the Unix epoch, Go `time.Duration` as an
integer number of nanoseconds, `int64` as `Int` and the unsigned integer
types as `Nat`, with explicit `% 2^w` (respectively `Int.emod 2^w` plus
`Int.toNat`) inserted exactly where the Go code performs a narrowing
conversion.  Go `/` and `%` on `int64` are truncated division, hence
`Int.tdiv` and `Int.tmod`.  A 16-byte identifier is a structure of 16
byte-valued fields, an 8-byte half a structure of 8 such fields.

The busy-wait loop inside `Process.NewID` (resampling the wall clock after
counter exhaustion) is modelled by passing the sample at which the loop
exits as an explicit argument `nowSample`; the loop exits only when
`internalTime nowSample` strictly exceeds the stored tick, which theorems
about that path carry as a hypothesis.
-/

set_option maxRecDepth 40000

namespace Buid

/-- Microseconds in a second (source constant `secondInMicroseconds`). -/
def secondInMicroseconds : Int := 1000000

/-- Microseconds in a minute (source constant `minuteInMicroseconds`). -/
def minuteInMicroseconds : Int := 60 * 1000000

/-- Microseconds in an hour (source constant `hourInMicroseconds`). -/
def hourInMicroseconds : Int := 60 * 60 * 1000000

/-- The bespoke epoch of BUID, in Unix-epoch microseconds: the value of
`time.Date(2017, 10, 24, 0, 0, 0, 0, time.UTC).UnixNano() / 1000`. -/
def Epoch : Int := 1508803200000000

/-- Source `internalTime`: internal epoch time in microseconds of an
absolute instant given in Unix-epoch nanoseconds
(`t.UnixNano()/1000 - Epoch`, with truncated division). -/
def internalTime (tNanos : Int) : Int :=
  tNanos.tdiv 1000 - Epoch

/-- Source `externalTime`: the absolute instant (Unix-epoch nanoseconds, UTC)
of an internal microsecond tick (`time.Unix(0, (Epoch+t)*1000)`). -/
def externalTime (t : Int) : Int :=
  (Epoch + t) * 1000

/-- A BUID: the 16 bytes of the Go array type `ID [16]byte`. -/
structure ID where
  b0 : Nat
  b1 : Nat
  b2 : Nat
  b3 : Nat
  b4 : Nat
  b5 : Nat
  b6 : Nat
  b7 : Nat
  b8 : Nat
  b9 : Nat
  b10 : Nat
  b11 : Nat
  b12 : Nat
  b13 : Nat
  b14 : Nat
  b15 : Nat
deriving DecidableEq

/-- Shard part of the BUID: the 8 bytes of the Go type `Shard [8]byte`. -/
structure Shard where
  s0 : Nat
  s1 : Nat
  s2 : Nat
  s3 : Nat
  s4 : Nat
  s5 : Nat
  s6 : Nat
  s7 : Nat
deriving DecidableEq

/-- Key part of the BUID: the 8 bytes of the Go type `Key [8]byte`. -/
structure Key where
  k0 : Nat
  k1 : Nat
  k2 : Nat
  k3 : Nat
  k4 : Nat
  k5 : Nat
  k6 : Nat
  k7 : Nat
deriving DecidableEq

/-- Generator state (Go struct `Process`): `id uint16`, `counter uint32`
and the stored tick `t int64`.  The mutex only serialises access and has
no sequential content. -/
structure Process where
  id : Nat
  counter : Nat
  t : Int
deriving DecidableEq

/-- The composite-literal `ID{...}` built at the end of `Process.NewID`,
as a function of the already-decided field values.  Each `byte(e)`
conversion of the source is `e % 256`; `&&&`, `|||`, `<<<` and `>>>`
are the Go operators `&`, `|`, `<<` and `>>` on the untruncated values
(the shard index and process id are `uint16`, the hour and microsecond
fields `uint32`, the minute and second fields `uint8`, the counter the
`uint16` image of the state counter). -/
def packID (shard hour minute second micro process counter : Nat) : ID :=
  ⟨(shard >>> 8) % 256, shard % 256,
   0, 0,
   (hour >>> 24) % 256, (hour >>> 16) % 256, (hour >>> 8) % 256, hour % 256,
   ((minute &&& 0x3f) <<< 2) ||| ((second &&& 0x30) >>> 4),
   ((second &&& 0x0f) <<< 4) ||| ((micro >>> 16) % 256),
   (micro >>> 8) % 256, micro % 256,
   (process >>> 8) % 256, process % 256,
   (counter >>> 8) % 256, counter % 256⟩

/-- Field extraction and packing of `Process.NewID` after the lock is
released: decompose the stored tick `t` into hour, minute, second and
microsecond exactly as the source `var (...)` block does
(`uint32(t / hourInMicroseconds)`, `uint8((t % hourInMicroseconds) /
minuteInMicroseconds)`, `uint8((t % minuteInMicroseconds) /
secondInMicroseconds)`, `uint32(t % secondInMicroseconds)`), then build
the identifier. -/
def makeID (shard : Nat) (t : Int) (process counter : Nat) : ID :=
  let hour : Nat := ((t.tdiv hourInMicroseconds) % 2 ^ 32).toNat
  let minute : Nat := (((t.tmod hourInMicroseconds).tdiv minuteInMicroseconds) % 2 ^ 8).toNat
  let second : Nat := (((t.tmod minuteInMicroseconds).tdiv secondInMicroseconds) % 2 ^ 8).toNat
  let micro : Nat := ((t.tmod secondInMicroseconds) % 2 ^ 32).toNat
  packID shard hour minute second micro process counter

/-- Source `NewProcess`: a fresh generator whose stored tick is seeded
from the construction instant (after the sub-microsecond busy wait) and
whose counter starts at the `uint32` zero value. -/
def NewProcess (id : Nat) (seedTime : Int) : Process :=
  ⟨id, 0, internalTime seedTime⟩

/-- Source `Process.NewID`: the state transition and identifier of one
mint call.  `timestamp` is the caller-supplied instant (nanoseconds);
`nowSample` is the instant read by the resample loop on the
counter-exhaustion path at the iteration where the loop exits.
Returns the updated generator state together with the identifier. -/
def NewID (p : Process) (shard : Nat) (timestamp : Int) (nowSample : Int) : Process × ID :=
  let ts := internalTime timestamp
  if p.t < ts then
    (⟨p.id, 0, ts⟩, makeID shard ts p.id 0)
  else
    let p1 : Process := if 65535 < p.counter then ⟨p.id, 0, internalTime nowSample⟩ else p
    let counter : Nat := p1.counter % 65536
    (⟨p1.id, (p1.counter + 1) % 2 ^ 32, p1.t⟩, makeID shard p1.t p.id counter)

/-- Source `ID.Split`: copy the first 8 bytes into a `Shard` and the last
8 bytes into a `Key`. -/
def ID.Split (id : ID) : Shard × Key :=
  (⟨id.b0, id.b1, id.b2, id.b3, id.b4, id.b5, id.b6, id.b7⟩,
   ⟨id.b8, id.b9, id.b10, id.b11, id.b12, id.b13, id.b14, id.b15⟩)

/-- Source `ID.Time`: decode hour, minute, second and microsecond from
bytes 4..11 and return the absolute instant `externalTime` of the
recombined tick. -/
def ID.Time (id : ID) : Int :=
  let hour : Nat := (id.b4 <<< 24) ||| (id.b5 <<< 16) ||| (id.b6 <<< 8) ||| id.b7
  let minute : Nat := (id.b8 &&& 0xfc) >>> 2
  let second : Nat := ((id.b8 &&& 0x03) <<< 4) ||| (id.b9 >>> 4)
  let micro : Nat := ((id.b9 &&& 0x0f) <<< 16) ||| (id.b10 <<< 8) ||| id.b11
  let t : Int := (hour : Int) * hourInMicroseconds + (minute : Int) * minuteInMicroseconds +
    (second : Int) * secondInMicroseconds + (micro : Int)
  externalTime t

/-- Source `Shard.Index`: the embedded shard index
(`uint16(s[0])<<8 | uint16(s[1])`). -/
def Shard.Index (s : Shard) : Nat :=
  (s.s0 <<< 8) ||| s.s1

/-- Source `Shard.Time`: the embedded hour as an absolute instant
(`externalTime(int64(hour) * hourInMicroseconds)`). -/
def Shard.Time (s : Shard) : Int :=
  let hour : Nat := (s.s4 <<< 24) ||| (s.s5 <<< 16) ||| (s.s6 <<< 8) ||| s.s7
  externalTime ((hour : Int) * hourInMicroseconds)

/-- Source `Key.Time`: the embedded sub-hour time as a duration in
nanoseconds. -/
def Key.Time (k : Key) : Int :=
  let minute : Nat := (k.k0 &&& 0xfc) >>> 2
  let second : Nat := ((k.k0 &&& 0x03) <<< 4) ||| (k.k1 >>> 4)
  let micro : Nat := ((k.k1 &&& 0x0f) <<< 16) ||| (k.k2 <<< 8) ||| k.k3
  ((minute : Int) * minuteInMicroseconds + (second : Int) * secondInMicroseconds +
    (micro : Int)) * 1000

/-- Source `Key.Process`: the embedded process id. -/
def Key.Process (k : Key) : Nat :=
  (k.k4 <<< 8) ||| k.k5

/-- Source `Key.Counter`: the embedded counter. -/
def Key.Counter (k : Key) : Nat :=
  (k.k6 <<< 8) ||| k.k7

/-- The 16 bytes of an identifier, most significant first, exactly as
laid out in the Go array. -/
def ID.toList (id : ID) : List Nat :=
  [id.b0, id.b1, id.b2, id.b3, id.b4, id.b5, id.b6, id.b7,
   id.b8, id.b9, id.b10, id.b11, id.b12, id.b13, id.b14, id.b15]

/-- Byte-wise lexicographic strict order on byte strings. -/
def bytesLt : List Nat → List Nat → Bool
  | _, [] => false
  | [], _ :: _ => true
  | a :: as, b :: bs => if a < b then true else if a = b then bytesLt as bs else false

/-- Big-endian value of a byte string. -/
def beNat : List Nat → Nat
  | [] => 0
  | a :: as => a * 256 ^ as.length + beNat as

/-- All sixteen bytes of an identifier are in byte range. -/
def byteValid (id : ID) : Prop :=
  id.b0 < 256 ∧ id.b1 < 256 ∧ id.b2 < 256 ∧ id.b3 < 256 ∧
  id.b4 < 256 ∧ id.b5 < 256 ∧ id.b6 < 256 ∧ id.b7 < 256 ∧
  id.b8 < 256 ∧ id.b9 < 256 ∧ id.b10 < 256 ∧ id.b11 < 256 ∧
  id.b12 < 256 ∧ id.b13 < 256 ∧ id.b14 < 256 ∧ id.b15 < 256

instance (id : ID) : Decidable (byteValid id) := by
  unfold byteValid
  infer_instance

/-! ### Bridging lemmas: Go bit operations as arithmetic -/

/-- Disjoint bitwise or is addition: if the low `k` bits of `x` are clear
and `y` fits in `k` bits, `x ||| y = x + y`. -/
theorem lor_eq_add (k x y : Nat) (hx : x % 2 ^ k = 0) (hy : y < 2 ^ k) :
    x ||| y = x + y := by
  have hdvd : 2 ^ k ∣ x := Nat.dvd_of_mod_eq_zero hx
  have hx2 : 2 ^ k * (x / 2 ^ k) = x := Nat.mul_div_cancel' hdvd
  calc x ||| y = 2 ^ k * (x / 2 ^ k) ||| y := by rw [hx2]
    _ = 2 ^ k * (x / 2 ^ k) + y := (Nat.mul_add_lt_is_or hy _).symm
    _ = x + y := by rw [hx2]

/-- Masking with `0xfc` and shifting right twice extracts the high six
bits of a byte. -/
theorem and_fc_shift : ∀ x < 256, (x &&& 0xfc) >>> 2 = x / 4 := by decide

/-- Masking a byte with `0x03` is reduction mod 4. -/
theorem and_03 : ∀ x < 256, x &&& 0x03 = x % 4 := by decide

/-- Masking a byte with `0x0f` is reduction mod 16. -/
theorem and_0f : ∀ x < 256, x &&& 0x0f = x % 16 := by decide

/-- Masking a byte with `0x3f` is reduction mod 64. -/
theorem and_3f : ∀ x < 256, x &&& 0x3f = x % 64 := by decide

/-- Masking a byte with `0x30` and shifting right four times extracts
bits 4 and 5. -/
theorem and_30_shift : ∀ x < 256, (x &&& 0x30) >>> 4 = x % 64 / 16 := by decide

/-- Recomposition of a two-byte big-endian value. -/
theorem or2_bytes (x y : Nat) (hy : y < 256) :
    (x <<< 8) ||| y = x * 2 ^ 8 + y := by
  rw [Nat.shiftLeft_eq]
  exact lor_eq_add 8 _ _ (by omega) (by omega)

/-- Recomposition of a 20-bit microsecond field from its nibble and two
bytes. -/
theorem or3_bytes (x y z : Nat) (hy : y < 256) (hz : z < 256) :
    (x <<< 16) ||| (y <<< 8) ||| z = x * 2 ^ 16 + y * 2 ^ 8 + z := by
  rw [Nat.shiftLeft_eq, Nat.shiftLeft_eq]
  rw [lor_eq_add 16 (x * 2 ^ 16) (y * 2 ^ 8) (by omega) (by omega)]
  exact lor_eq_add 8 _ _ (by omega) (by omega)

/-- Recomposition of a four-byte big-endian value. -/
theorem or4_bytes (x y z w : Nat) (hy : y < 256) (hz : z < 256) (hw : w < 256) :
    (x <<< 24) ||| (y <<< 16) ||| (z <<< 8) ||| w =
      x * 2 ^ 24 + y * 2 ^ 16 + z * 2 ^ 8 + w := by
  rw [Nat.shiftLeft_eq, Nat.shiftLeft_eq, Nat.shiftLeft_eq]
  rw [lor_eq_add 24 (x * 2 ^ 24) (y * 2 ^ 16) (by omega) (by omega)]
  rw [lor_eq_add 16 (x * 2 ^ 24 + y * 2 ^ 16) (z * 2 ^ 8) (by omega) (by omega)]
  exact lor_eq_add 8 _ _ (by omega) (by omega)

/-- The second-of-minute decoder as arithmetic on two bytes. -/
theorem second_decode (a b : Nat) (ha : a < 256) (hb : b < 256) :
    ((a &&& 0x03) <<< 4) ||| (b >>> 4) = a % 4 * 16 + b / 16 := by
  rw [and_03 a ha, Nat.shiftLeft_eq, Nat.shiftRight_eq_div_pow]
  rw [lor_eq_add 4 (a % 4 * 2 ^ 4) (b / 2 ^ 4) (by omega) (by omega)]

/-- Byte 8 of a packed identifier as arithmetic on the minute and second
fields. -/
theorem b8_pack (m s : Nat) (hm : m < 256) (hs : s < 256) :
    ((m &&& 0x3f) <<< 2) ||| ((s &&& 0x30) >>> 4) = m % 64 * 4 + s % 64 / 16 := by
  rw [and_3f m hm, and_30_shift s hs, Nat.shiftLeft_eq]
  rw [lor_eq_add 2 (m % 64 * 2 ^ 2) (s % 64 / 16) (by omega) (by omega)]

/-- Byte 9 of a packed identifier as arithmetic on the second and
microsecond fields. -/
theorem b9_pack (s u : Nat) (hs : s < 256) (hu : u < 2 ^ 20) :
    ((s &&& 0x0f) <<< 4) ||| ((u >>> 16) % 256) = s % 16 * 16 + u / 65536 := by
  rw [and_0f s hs, Nat.shiftLeft_eq, Nat.shiftRight_eq_div_pow]
  have h1 : u / 2 ^ 16 % 256 = u / 65536 := by omega
  rw [h1]
  rw [lor_eq_add 4 (s % 16 * 2 ^ 4) (u / 65536) (by omega) (by omega)]

/-! ### Decoding a packed identifier -/

/-- The shard index survives pack-then-split-then-decode. -/
theorem Index_Split_packID (shard h m s u pid c : Nat) (hsh : shard < 65536) :
    Shard.Index ((packID shard h m s u pid c).Split).1 = shard := by
  simp only [packID, ID.Split, Shard.Index]
  rw [or2_bytes _ _ (Nat.mod_lt _ (by norm_num))]
  rw [Nat.shiftRight_eq_div_pow]
  omega

/-- The process id survives pack-then-split-then-decode. -/
theorem Process_Split_packID (shard h m s u pid c : Nat) (hpid : pid < 65536) :
    Key.Process ((packID shard h m s u pid c).Split).2 = pid := by
  simp only [packID, ID.Split, Key.Process]
  rw [or2_bytes _ _ (Nat.mod_lt _ (by norm_num))]
  rw [Nat.shiftRight_eq_div_pow]
  omega

/-- The counter survives pack-then-split-then-decode. -/
theorem Counter_Split_packID (shard h m s u pid c : Nat) (hc : c < 65536) :
    Key.Counter ((packID shard h m s u pid c).Split).2 = c := by
  simp only [packID, ID.Split, Key.Counter]
  rw [or2_bytes _ _ (Nat.mod_lt _ (by norm_num))]
  rw [Nat.shiftRight_eq_div_pow]
  omega

/-- The embedded timestamp of a packed identifier is the external time of
the recombined tick, for in-range fields. -/
theorem Time_packID (shard h m s u pid c : Nat)
    (hh : h < 2 ^ 32) (hm : m < 64) (hs : s < 64) (hu : u < 2 ^ 20) :
    (packID shard h m s u pid c).Time =
      externalTime ((h : Int) * hourInMicroseconds + (m : Int) * minuteInMicroseconds +
        (s : Int) * secondInMicroseconds + (u : Int)) := by
  simp only [packID, ID.Time]
  rw [b8_pack m s (by omega) (by omega), b9_pack s u (by omega) hu]
  rw [or4_bytes _ _ _ _ (Nat.mod_lt _ (by norm_num)) (Nat.mod_lt _ (by norm_num))
    (Nat.mod_lt _ (by norm_num))]
  rw [and_fc_shift _ (by omega)]
  rw [second_decode _ _ (by omega) (by omega)]
  rw [and_0f _ (by omega)]
  rw [or3_bytes _ _ _ (Nat.mod_lt _ (by norm_num)) (Nat.mod_lt _ (by norm_num))]
  rw [Nat.shiftRight_eq_div_pow, Nat.shiftRight_eq_div_pow, Nat.shiftRight_eq_div_pow,
    Nat.shiftRight_eq_div_pow]
  have e1 : h / 2 ^ 24 % 256 * 2 ^ 24 + h / 2 ^ 16 % 256 * 2 ^ 16 +
      h / 2 ^ 8 % 256 * 2 ^ 8 + h % 256 = h := by omega
  have e2 : (m % 64 * 4 + s % 64 / 16) / 4 = m := by omega
  have e3 : (m % 64 * 4 + s % 64 / 16) % 4 * 16 + (s % 16 * 16 + u / 65536) / 16 = s := by
    omega
  have e4 : (s % 16 * 16 + u / 65536) % 16 * 2 ^ 16 + u / 2 ^ 8 % 256 * 2 ^ 8 + u % 256 = u := by
    omega
  rw [e1, e2, e3, e4]

/-- On a nonnegative tick below the hour-field capacity, the field
extraction of `makeID` computes the hour, minute, second and microsecond
of the tick by plain euclidean division. -/
theorem makeID_ofNat (shard pid c n : Nat) (hn : n < 4294967296 * 3600000000) :
    makeID shard ((n : Nat) : Int) pid c =
      packID shard (n / 3600000000) (n % 3600000000 / 60000000) (n % 60000000 / 1000000)
        (n % 1000000) pid c := by
  unfold makeID
  have e1 : ((n : Int)).tdiv hourInMicroseconds = ((n / 3600000000 : Nat) : Int) := rfl
  have e2 : (((n : Int)).tmod hourInMicroseconds).tdiv minuteInMicroseconds =
      ((n % 3600000000 / 60000000 : Nat) : Int) := rfl
  have e3 : (((n : Int)).tmod minuteInMicroseconds).tdiv secondInMicroseconds =
      ((n % 60000000 / 1000000 : Nat) : Int) := rfl
  have e4 : ((n : Int)).tmod secondInMicroseconds = ((n % 1000000 : Nat) : Int) := rfl
  rw [e1, e2, e3, e4]
  have f1 : ((n / 3600000000 : Nat) : Int) % 2 ^ 32 = ((n / 3600000000 : Nat) : Int) := by
    refine Int.emod_eq_of_lt (Int.natCast_nonneg _) ?_
    have : n / 3600000000 < 4294967296 := by omega
    exact_mod_cast this
  have f2 : ((n % 3600000000 / 60000000 : Nat) : Int) % 2 ^ 8 =
      ((n % 3600000000 / 60000000 : Nat) : Int) := by
    refine Int.emod_eq_of_lt (Int.natCast_nonneg _) ?_
    have : n % 3600000000 / 60000000 < 256 := by omega
    exact_mod_cast this
  have f3 : ((n % 60000000 / 1000000 : Nat) : Int) % 2 ^ 8 =
      ((n % 60000000 / 1000000 : Nat) : Int) := by
    refine Int.emod_eq_of_lt (Int.natCast_nonneg _) ?_
    have : n % 60000000 / 1000000 < 256 := by omega
    exact_mod_cast this
  have f4 : ((n % 1000000 : Nat) : Int) % 2 ^ 32 = ((n % 1000000 : Nat) : Int) := by
    refine Int.emod_eq_of_lt (Int.natCast_nonneg _) ?_
    have : n % 1000000 < 4294967296 := by omega
    exact_mod_cast this
  rw [f1, f2, f3, f4]
  rw [Int.toNat_natCast, Int.toNat_natCast, Int.toNat_natCast, Int.toNat_natCast]

/-! ### Byte-wise lexicographic order against field order -/

/-- Positional comparison: with remainders below the weight `K`, comparing
`a * K + x` against `b * K + y` is lexicographic comparison of the pairs. -/
theorem posLt {K a b x y : Nat} (hx : x < K) (hy : y < K) :
    a * K + x < b * K + y ↔ a < b ∨ (a = b ∧ x < y) := by
  constructor
  · intro hlt
    rcases Nat.lt_trichotomy a b with hab | hab | hab
    · exact Or.inl hab
    · right
      refine ⟨hab, ?_⟩
      subst hab
      exact Nat.lt_of_add_lt_add_left hlt
    · exfalso
      have h1 : b * K + K ≤ a * K := by
        have h0 : (b + 1) * K ≤ a * K := mul_le_mul_right' (Nat.succ_le_of_lt hab) K
        calc b * K + K = (b + 1) * K := by ring
          _ ≤ a * K := h0
      have h2 : b * K + y < a * K + x :=
        calc b * K + y < b * K + K := Nat.add_lt_add_left hy _
          _ ≤ a * K := h1
          _ ≤ a * K + x := Nat.le_add_right _ _
      exact Nat.lt_asymm hlt h2
  · intro hor
    rcases hor with hab | ⟨rfl, hxy⟩
    · have h1 : a * K + K ≤ b * K := by
        have h0 : (a + 1) * K ≤ b * K := mul_le_mul_right' (Nat.succ_le_of_lt hab) K
        calc a * K + K = (a + 1) * K := by ring
          _ ≤ b * K := h0
      calc a * K + x < a * K + K := Nat.add_lt_add_left hx _
        _ ≤ b * K := h1
        _ ≤ b * K + y := Nat.le_add_right _ _
    · exact Nat.add_lt_add_left hxy _

/-- A byte string's big-endian value fits in its length. -/
theorem beNat_lt : ∀ as : List Nat, (∀ x ∈ as, x < 256) → beNat as < 256 ^ as.length
  | [], _ => by simp [beNat]
  | a :: as, h => by
    have ha : a < 256 := h a (List.mem_cons_self a as)
    have ht := beNat_lt as fun x hx => h x (List.mem_cons_of_mem a hx)
    simp only [beNat, List.length_cons]
    calc a * 256 ^ as.length + beNat as < a * 256 ^ as.length + 256 ^ as.length :=
        Nat.add_lt_add_left ht _
      _ = (a + 1) * 256 ^ as.length := by ring
      _ ≤ 256 * 256 ^ as.length := mul_le_mul_right' (by omega) _
      _ = 256 ^ (as.length + 1) := by rw [pow_succ]; ring

/-- On equal-length byte strings, byte-wise lexicographic order is
comparison of big-endian values. -/
theorem bytesLt_iff : ∀ as bs : List Nat, as.length = bs.length →
    (∀ x ∈ as, x < 256) → (∀ x ∈ bs, x < 256) →
    (bytesLt as bs = true ↔ beNat as < beNat bs)
  | [], [], _, _, _ => by simp [bytesLt, beNat]
  | [], _ :: _, hlen, _, _ => by simp at hlen
  | _ :: _, [], hlen, _, _ => by simp at hlen
  | a :: as, b :: bs, hlen, ha, hb => by
    have hlen' : as.length = bs.length := by simpa using hlen
    have ha' : ∀ x ∈ as, x < 256 := fun x hx => ha x (List.mem_cons_of_mem a hx)
    have hb' : ∀ x ∈ bs, x < 256 := fun x hx => hb x (List.mem_cons_of_mem b hx)
    have ih := bytesLt_iff as bs hlen' ha' hb'
    simp only [bytesLt, beNat, hlen']
    rw [posLt (by rw [← hlen']; exact beNat_lt as ha') (beNat_lt bs hb')]
    split_ifs with h1 h2
    · simp [h1]
    · subst h2
      simpa [Nat.lt_irrefl] using ih
    · simp only [Bool.false_eq_true, false_iff]
      rintro (hab | ⟨hab, -⟩)
      · exact h1 hab
      · exact h2 hab

/-- All bytes of a packed identifier are in byte range, for in-range
minute, second and microsecond fields. -/
theorem packID_toList_bytes (shard h m s u pid c : Nat)
    (hm : m < 64) (hs : s < 64) (hu : u < 2 ^ 20) :
    ∀ x ∈ (packID shard h m s u pid c).toList, x < 256 := by
  intro x hx
  simp only [packID, ID.toList, List.mem_cons, List.not_mem_nil, or_false] at hx
  rw [b8_pack m s (by omega) (by omega), b9_pack s u (by omega) hu] at hx
  rcases hx with rfl | rfl | rfl | rfl | rfl | rfl | rfl | rfl | rfl | rfl | rfl | rfl |
    rfl | rfl | rfl | rfl <;> omega

/-- The big-endian value of a packed identifier in terms of its fields. -/
theorem beNat_packID (shard h m s u pid c : Nat) (hsh : shard < 65536) (hh : h < 2 ^ 32)
    (hm : m < 64) (hs : s < 64) (hu : u < 2 ^ 20) (hpid : pid < 65536) (hc : c < 65536) :
    beNat (packID shard h m s u pid c).toList =
      shard * 2 ^ 112 + h * 2 ^ 64 + m * 2 ^ 58 + s * 2 ^ 52 + u * 2 ^ 32 +
        pid * 2 ^ 16 + c := by
  simp only [packID, ID.toList, beNat, List.length_cons, List.length_nil]
  rw [b8_pack m s (by omega) (by omega), b9_pack s u (by omega) hu]
  simp only [Nat.shiftRight_eq_div_pow]
  norm_num
  omega

/-! ### Claims -/

/-- C1: the spec requires N consecutive mint calls with the same timestamp
to yield sequence numbers 0,1,...,N-1 in call order.  The code violates
this: starting from a generator with stored tick 0 and counter 0, two
consecutive NewID calls with the same timestamp of tick 1 (one microsecond
past the epoch) both decode to sequence number 0, because the tick-advance
branch resets the counter to 0 without reserving this call's sequence
number.  The spec expects sequences 0 and 1. -/
theorem C1_counter_repeats :
    Key.Counter (((NewID ⟨1, 0, 0⟩ 2 1508803200000001000 0).2).Split).2 = 0 ∧
    Key.Counter (((NewID (NewID ⟨1, 0, 0⟩ 2 1508803200000001000 0).1 2
      1508803200000001000 0).2).Split).2 = 0 := by
  decide

/-- C2: the spec guarantees that no two mint results of one generator are
bit-identical when fewer than 65536 calls share a microsecond tick.  The
code violates this: the two calls of the C1 scenario (only two calls on
the tick) return equal 16-byte identifiers. -/
theorem C2_duplicate_id :
    (NewID ⟨1, 0, 0⟩ 2 1508803200000001000 0).2 =
      (NewID (NewID ⟨1, 0, 0⟩ 2 1508803200000001000 0).1 2 1508803200000001000 0).2 := by
  decide

/-- C3 counterexample: minting with a timestamp whose tick (50) is below
the stored tick (100) returns an identifier whose embedded time is the
stored tick, not the requested timestamp, so the unconditional round trip
of the claim fails. -/
theorem C3_counterexample :
    ((NewID ⟨1, 0, 100⟩ 2 1508803200000050000 0).2).Time ≠ (1508803200000050000 : Int) ∧
    ((NewID ⟨1, 0, 100⟩ 2 1508803200000050000 0).2).Time = externalTime 100 := by
  decide

/-- C3 (amended): when the requested timestamp's tick strictly exceeds the
generator's stored tick and lies in the representable range, the minted
identifier's embedded time is exactly the requested timestamp truncated
to microsecond resolution. -/
theorem C3_roundtrip_of_tick_advance (p : Process) (shard : Nat) (timestamp nowSample : Int)
    (h1 : p.t < internalTime timestamp) (h2 : 0 ≤ internalTime timestamp)
    (h3 : internalTime timestamp < 4294967296 * 3600000000) :
    ((NewID p shard timestamp nowSample).2).Time = externalTime (internalTime timestamp) ∧
    (timestamp.tmod 1000 = 0 → ((NewID p shard timestamp nowSample).2).Time = timestamp) := by
  have key : ((NewID p shard timestamp nowSample).2).Time =
      externalTime (internalTime timestamp) := by
    simp only [NewID]
    rw [if_pos h1]
    obtain ⟨n, hn⟩ := Int.eq_ofNat_of_zero_le h2
    rw [hn]
    rw [hn] at h3
    have hnn : n < 4294967296 * 3600000000 := by exact_mod_cast h3
    rw [makeID_ofNat _ _ _ _ hnn]
    rw [Time_packID _ _ _ _ _ _ _ (by omega) (by omega) (by omega) (by omega)]
    congr 1
    simp only [hourInMicroseconds, minuteInMicroseconds, secondInMicroseconds]
    have hid : n / 3600000000 * 3600000000 + n % 3600000000 / 60000000 * 60000000 +
        n % 60000000 / 1000000 * 1000000 + n % 1000000 = n := by omega
    exact_mod_cast congrArg (fun z : Nat => (z : Int)) hid
  refine ⟨key, fun htr => ?_⟩
  rw [key]
  have hc := Int.tdiv_mul_cancel_of_tmod_eq_zero htr
  unfold externalTime internalTime
  omega

/-- C3 witness: a fresh generator seeded at the epoch, minting at one
microsecond past the epoch. -/
theorem C3_roundtrip_witness :
    ((NewID ⟨1, 0, 0⟩ 2 1508803200000001000 0).2).Time =
      externalTime (internalTime 1508803200000001000) ∧
    ((1508803200000001000 : Int).tmod 1000 = 0 →
      ((NewID ⟨1, 0, 0⟩ 2 1508803200000001000 0).2).Time = (1508803200000001000 : Int)) :=
  C3_roundtrip_of_tick_advance ⟨1, 0, 0⟩ 2 1508803200000001000 0 (by decide) (by decide)
    (by decide)

/-- C7: the epoch conversions are an exact inverse pair: re-deriving the
tick count from the external time of a tick yields the tick, for ticks
whose external nanosecond value stays within the int64 range. -/
theorem C7_ticks_roundtrip (k : Int) (_h1 : -(2 ^ 63) ≤ (Epoch + k) * 1000)
    (_h2 : (Epoch + k) * 1000 < 2 ^ 63) :
    internalTime (externalTime k) = k := by
  unfold internalTime externalTime
  rw [Int.mul_tdiv_cancel _ (by norm_num)]
  omega

/-- C7 witness at tick 42. -/
theorem C7_ticks_roundtrip_witness : internalTime (externalTime 42) = 42 :=
  C7_ticks_roundtrip 42 (by decide) (by decide)

/-- C10: the embedded timestamp depends only on bytes 4..11; identifiers
agreeing there have equal decoded times regardless of the shard-index,
reserved, process and counter bytes. -/
theorem C10_time_depends_only_on_time_bytes (id1 id2 : ID)
    (h4 : id1.b4 = id2.b4) (h5 : id1.b5 = id2.b5) (h6 : id1.b6 = id2.b6)
    (h7 : id1.b7 = id2.b7) (h8 : id1.b8 = id2.b8) (h9 : id1.b9 = id2.b9)
    (h10 : id1.b10 = id2.b10) (h11 : id1.b11 = id2.b11) :
    id1.Time = id2.Time := by
  simp only [ID.Time]
  rw [h4, h5, h6, h7, h8, h9, h10, h11]

/-- C10 witness: two identifiers agreeing on bytes 4..11 but differing
everywhere else decode to the same time. -/
theorem C10_witness :
    (⟨9, 8, 7, 6, 1, 2, 3, 4, 5, 6, 7, 8, 1, 1, 1, 1⟩ : ID).Time =
      (⟨0, 0, 0, 0, 1, 2, 3, 4, 5, 6, 7, 8, 9, 9, 9, 9⟩ : ID).Time :=
  C10_time_depends_only_on_time_bytes _ _ rfl rfl rfl rfl rfl rfl rfl rfl

/-- C4: for identifiers packed from in-range field values, byte-wise
lexicographic ordering of the 16 bytes coincides with lexicographic
ordering of the tuples (shard-index, generation time in microseconds,
generator id, sequence counter). -/
theorem C4_lex_order_iff (s1 h1 m1 sec1 u1 p1 c1 s2 h2 m2 sec2 u2 p2 c2 : Nat)
    (hs1 : s1 < 65536) (hh1 : h1 < 4294967296) (hm1 : m1 < 60) (hsec1 : sec1 < 60)
    (hu1 : u1 < 1000000) (hp1 : p1 < 65536) (hc1 : c1 < 65536)
    (hs2 : s2 < 65536) (hh2 : h2 < 4294967296) (hm2 : m2 < 60) (hsec2 : sec2 < 60)
    (hu2 : u2 < 1000000) (hp2 : p2 < 65536) (hc2 : c2 < 65536) :
    (bytesLt (packID s1 h1 m1 sec1 u1 p1 c1).toList
        (packID s2 h2 m2 sec2 u2 p2 c2).toList = true ↔
      (s1 < s2 ∨ (s1 = s2 ∧
        (h1 * 3600000000 + m1 * 60000000 + sec1 * 1000000 + u1 <
            h2 * 3600000000 + m2 * 60000000 + sec2 * 1000000 + u2 ∨
          (h1 * 3600000000 + m1 * 60000000 + sec1 * 1000000 + u1 =
              h2 * 3600000000 + m2 * 60000000 + sec2 * 1000000 + u2 ∧
            (p1 < p2 ∨ (p1 = p2 ∧ c1 < c2))))))) := by
  rw [bytesLt_iff (packID s1 h1 m1 sec1 u1 p1 c1).toList (packID s2 h2 m2 sec2 u2 p2 c2).toList
    (by rfl)
    (packID_toList_bytes _ _ _ _ _ _ _ (by omega) (by omega) (by omega))
    (packID_toList_bytes _ _ _ _ _ _ _ (by omega) (by omega) (by omega))]
  rw [beNat_packID _ _ _ _ _ _ _ hs1 (by omega) (by omega) (by omega) (by omega) hp1 hc1]
  rw [beNat_packID _ _ _ _ _ _ _ hs2 (by omega) (by omega) (by omega) (by omega) hp2 hc2]
  omega

/-- C4 witness: two identifiers equal in every field except the counter
compare exactly as their counters do. -/
theorem C4_lex_order_witness :
    bytesLt (packID 1 2 3 4 5 6 7).toList (packID 1 2 3 4 5 6 8).toList = true :=
  (C4_lex_order_iff 1 2 3 4 5 6 7 1 2 3 4 5 6 8
    (by decide) (by decide) (by decide) (by decide) (by decide) (by decide) (by decide)
    (by decide) (by decide) (by decide) (by decide) (by decide) (by decide)
    (by decide)).mpr (by decide)

/-- C5: one mint call never moves the stored tick backward (given the
resample loop's exit condition that its sample is past the stored tick),
and a call that does not advance the tick and finds an unexhausted
counter keeps the stored tick and increments the counter instead of
resetting it. -/
theorem C5_monotone_no_reset (p : Process) (shard : Nat) (timestamp nowSample : Int)
    (hnow : p.t < internalTime nowSample) :
    p.t ≤ (NewID p shard timestamp nowSample).1.t ∧
      (internalTime timestamp ≤ p.t → p.counter ≤ 65535 →
        ((NewID p shard timestamp nowSample).1.t = p.t ∧
         (NewID p shard timestamp nowSample).1.counter = (p.counter + 1) % 2 ^ 32)) := by
  simp only [NewID]
  by_cases hts : p.t < internalTime timestamp
  · rw [if_pos hts]
    refine ⟨le_of_lt hts, fun hle _ => absurd hts (not_lt.mpr hle)⟩
  · rw [if_neg hts]
    by_cases hfull : 65535 < p.counter
    · rw [if_pos hfull]
      exact ⟨le_of_lt hnow, fun _ hle => absurd hfull (not_lt.mpr hle)⟩
    · rw [if_neg hfull]
      exact ⟨le_refl _, fun _ _ => ⟨rfl, rfl⟩⟩

/-- C5 witness: a same-tick call on a generator with counter 3 keeps the
tick and moves the counter to 4. -/
theorem C5_monotone_witness :
    (⟨1, 3, 7⟩ : Process).t ≤ (NewID ⟨1, 3, 7⟩ 2 1508803200000001000 1508803300000000000).1.t ∧
      (internalTime 1508803200000001000 ≤ (⟨1, 3, 7⟩ : Process).t →
        (⟨1, 3, 7⟩ : Process).counter ≤ 65535 →
        ((NewID ⟨1, 3, 7⟩ 2 1508803200000001000 1508803300000000000).1.t =
            (⟨1, 3, 7⟩ : Process).t ∧
         (NewID ⟨1, 3, 7⟩ 2 1508803200000001000 1508803300000000000).1.counter =
            ((⟨1, 3, 7⟩ : Process).counter + 1) % 2 ^ 32)) :=
  C5_monotone_no_reset ⟨1, 3, 7⟩ 2 1508803200000001000 1508803300000000000 (by decide)

/-- C6: splitting a freshly minted identifier reproduces the shard index,
the generator's process id, and the sequence number this call assigned. -/
theorem C6_field_fidelity (p : Process) (shard : Nat) (timestamp nowSample : Int)
    (hsh : shard < 65536) (hpid : p.id < 65536) :
    Shard.Index (((NewID p shard timestamp nowSample).2).Split).1 = shard ∧
    Key.Process (((NewID p shard timestamp nowSample).2).Split).2 = p.id ∧
    Key.Counter (((NewID p shard timestamp nowSample).2).Split).2 =
      (if p.t < internalTime timestamp then 0
       else if 65535 < p.counter then 0 else p.counter % 65536) := by
  simp only [NewID, makeID]
  by_cases hts : p.t < internalTime timestamp
  · rw [if_pos hts, if_pos hts]
    exact ⟨Index_Split_packID _ _ _ _ _ _ _ hsh, Process_Split_packID _ _ _ _ _ _ _ hpid,
      Counter_Split_packID _ _ _ _ _ _ _ (by omega)⟩
  · rw [if_neg hts, if_neg hts]
    by_cases hfull : 65535 < p.counter
    · rw [if_pos hfull, if_pos hfull]
      refine ⟨Index_Split_packID _ _ _ _ _ _ _ hsh, Process_Split_packID _ _ _ _ _ _ _ hpid, ?_⟩
      rw [Counter_Split_packID _ _ _ _ _ _ _ (by omega)]
      simp
    · rw [if_neg hfull, if_neg hfull]
      exact ⟨Index_Split_packID _ _ _ _ _ _ _ hsh, Process_Split_packID _ _ _ _ _ _ _ hpid,
        Counter_Split_packID _ _ _ _ _ _ _ (Nat.mod_lt _ (by norm_num))⟩

/-- C6 witness: the concrete scenario with shard index 42. -/
theorem C6_field_fidelity_witness :
    Shard.Index (((NewID ⟨12, 5, 7⟩ 42 1508803200000001000 0).2).Split).1 = 42 ∧
    Key.Process (((NewID ⟨12, 5, 7⟩ 42 1508803200000001000 0).2).Split).2 =
      (⟨12, 5, 7⟩ : Process).id ∧
    Key.Counter (((NewID ⟨12, 5, 7⟩ 42 1508803200000001000 0).2).Split).2 =
      (if (⟨12, 5, 7⟩ : Process).t < internalTime 1508803200000001000 then 0
       else if 65535 < (⟨12, 5, 7⟩ : Process).counter then 0
       else (⟨12, 5, 7⟩ : Process).counter % 65536) :=
  C6_field_fidelity ⟨12, 5, 7⟩ 42 1508803200000001000 0 (by decide) (by decide)

end Buid
